import Mathlib

/-!
Verification of the page-collection manager of the Pdf-Tools repository.

The organizer component (`PdfOrganizer`) keeps an ordered list of page
entries (`pages`), a selection set of entry identities (`selectedPages`),
the loaded file (`pdfFile`) and its parsed document (`pdfDoc`), and exposes
the operations `handleFile`, `togglePageSelection`, `deleteSelectedPages`,
`movePage`, `duplicatePage`, `addPagesFromFile` and `savePdf`.  The merger
component (`PdfMerger`) concatenates several documents (`mergePdfs`).

Modelling conventions:
- JavaScript strings are modelled as `List Char` (sequences of characters).
- A parsed PDF document is modelled as the list of its page contents, with
  the content type `γ` abstract; serialization is the identity on that list
  (the external library is a black box whose observable effect is which
  source pages appear, in which order).
- Asynchronous external-library calls (`PDFDocument.load`, thumbnail
  generation, re-reading the file in `savePdf`) are modelled by passing
  their results as parameters: a failed call is `none`.
- `Date.now()` and `Math.random()` are modelled by parameters (`now`,
  `rand`) supplied at the call site.
- UI-only state of the component (processing flags, drag state) is omitted;
  no modelled operation reads it.
-/

namespace PdfTools

/-! ### JavaScript string helpers: `split('-')`, `parseInt`, number rendering -/

/-- Model of JavaScript `s.split('-')`: splits a string at every `'-'`,
keeping empty fragments, so the result is always non-empty. -/
def splitDash : List Char → List (List Char)
  | [] => [[]]
  | c :: rest =>
    if c = '-' then [] :: splitDash rest
    else
      match splitDash rest with
      | [] => [[c]]
      | t :: ts => (c :: t) :: ts

/-- Numeric value of a decimal digit character. -/
def digitVal (c : Char) : Nat := c.toNat - 48

/-- Model of JavaScript `parseInt(s)` on the strings arising here: the
longest prefix of decimal digits is taken; an empty digit prefix is `NaN`,
modelled as `none`. -/
def jsParseInt (s : List Char) : Option Nat :=
  let ds := s.takeWhile Char.isDigit
  if ds.isEmpty then none
  else some (ds.foldl (fun a c => a * 10 + digitVal c) 0)

/-- Decimal rendering of a natural number, fuel-based to mirror repeated
division by 10 (models JavaScript template interpolation of a number). -/
def toDigitsAux : Nat → Nat → List Char
  | 0, _ => []
  | fuel + 1, n =>
    if n < 10 then [Nat.digitChar n]
    else toDigitsAux fuel (n / 10) ++ [Nat.digitChar (n % 10)]

/-- Decimal rendering of `n`, as JavaScript renders a natural number. -/
def natDigits (n : Nat) : List Char := toDigitsAux (n + 1) n

/-! ### Data model -/

/-- One entry of the working page sequence (source interface `PdfPage`). -/
structure PdfPage where
  id : List Char
  pageNumber : Nat
  thumbnail : List Char
  originalIndex : Nat
  deriving DecidableEq, Repr

/-- The organizer component state (source `PdfOrganizer` `useState` fields
that the modelled operations read or write). `γ` is the abstract type of a
source page's content; a parsed document is its list of page contents. -/
structure OrganizerState (γ : Type) where
  pdfFile : Option (List Char)
  pdfDoc : Option (List γ)
  pages : List PdfPage
  selectedPages : Finset (List Char)

/-- Initial organizer state (the `useState` initial values). -/
def emptyState {γ : Type} : OrganizerState γ :=
  { pdfFile := none, pdfDoc := none, pages := [], selectedPages := ∅ }

/-! ### Identity generation -/

/-- The literal token `page` used by every generated identity. -/
def pageTok : List Char := "page".data

/-- Identity of the `i`-th entry created by the initial load:
`page-${i}`. -/
def loadedPageId (i : Nat) : List Char := pageTok ++ '-' :: natDigits i

/-- Identity of a duplicated entry: `page-${Date.now()}-${Math.random()}`,
with the timestamp `now` and the rendered random number `rand`. -/
def dupPageId (now : Nat) (rand : List Char) : List Char :=
  pageTok ++ '-' :: (natDigits now ++ '-' :: rand)

/-- Identity of the `i`-th entry appended from an additional file:
`page-${Date.now()}-${i}` with the timestamp `now` observed at that
iteration. -/
def addedPageId (now i : Nat) : List Char :=
  pageTok ++ '-' :: (natDigits now ++ '-' :: natDigits i)

/-! ### Operations -/

/-- Source `togglePageSelection`: toggles `id` in the selection set. -/
def togglePageSelection {γ : Type} (st : OrganizerState γ) (id : List Char) :
    OrganizerState γ :=
  { st with
    selectedPages :=
      if id ∈ st.selectedPages then st.selectedPages.erase id
      else insert id st.selectedPages }

/-- Outcome reported by `deleteSelectedPages`: the early return on an empty
selection, the `alert` rejecting deletion of all pages, or a performed
deletion. -/
inductive DeleteOutcome where
  | noSelection
  | rejected
  | deleted
  deriving DecidableEq, Repr

/-- Source `deleteSelectedPages`: removes every page whose id is selected,
then clears the selection; rejects the call when the selection size equals
the page count. -/
def deleteSelectedPages {γ : Type} (st : OrganizerState γ) :
    OrganizerState γ × DeleteOutcome :=
  if st.selectedPages.card = 0 then (st, .noSelection)
  else if st.pages.length = st.selectedPages.card then (st, .rejected)
  else
    ({ st with
        pages := st.pages.filter (fun page => page.id ∉ st.selectedPages),
        selectedPages := ∅ },
      .deleted)

/-- Source `movePage`: guarded splice-out / splice-in. The target index is
an `Int` because the UI passes `index - 1`, which can be negative. -/
def movePage {γ : Type} (st : OrganizerState γ) (fromIndex : Nat)
    (toIndex : Int) : OrganizerState γ :=
  if toIndex < 0 ∨ (st.pages.length : Int) ≤ toIndex then st
  else
    match st.pages[fromIndex]? with
    | none => st
    | some removed =>
      { st with
        pages := (st.pages.eraseIdx fromIndex).insertIdx toIndex.toNat removed }

/-- Source `duplicatePage`: inserts a copy of the entry at `index`, with a
fresh identity, immediately after it.  The UI invokes it only with a valid
index; an out-of-range index leaves the state unchanged. -/
def duplicatePage {γ : Type} (st : OrganizerState γ) (index : Nat)
    (now : Nat) (rand : List Char) : OrganizerState γ :=
  match st.pages[index]? with
  | none => st
  | some page =>
    { st with
      pages := st.pages.insertIdx (index + 1) { page with id := dupPageId now rand } }

/-- The body of the page-building loops of `handleFile` and
`addPagesFromFile`: one thumbnail request per page index, aborting the
whole batch at the first failed request (the surrounding `try` catches the
throw before `setPages` runs). -/
def buildPagesFrom (thumb : Nat → Option (List Char))
    (mk : Nat → List Char → PdfPage) : List Nat → Option (List PdfPage)
  | [] => some []
  | i :: rest =>
    match thumb i with
    | none => none
    | some th =>
      match buildPagesFrom thumb mk rest with
      | none => none
      | some ps => some (mk i th :: ps)

/-- Entry list built by the `handleFile` loop for a `pageCount`-page
document. -/
def buildLoadedPages (pageCount : Nat) (thumb : Nat → Option (List Char)) :
    Option (List PdfPage) :=
  buildPagesFrom thumb
    (fun i th =>
      { id := loadedPageId i, pageNumber := i + 1, thumbnail := th,
        originalIndex := i })
    (List.range pageCount)

/-- Source `handleFile`: records the file and clears the selection, then
parses the bytes (`parsed` is the library's result) and, on success,
stores the document and replaces the page list; any failure is caught
after `setPdfFile`/`setSelectedPages`/`setPdfDoc` already ran, leaving
`pages` untouched. -/
def handleFile {γ : Type} (st : OrganizerState γ) (fileName : List Char)
    (parsed : Option (List γ)) (thumb : Nat → Option (List Char)) :
    OrganizerState γ :=
  let st1 := { st with pdfFile := some fileName, selectedPages := (∅ : Finset (List Char)) }
  match parsed with
  | none => st1
  | some pdf =>
    match buildLoadedPages pdf.length thumb with
    | none => { st1 with pdfDoc := some pdf }
    | some list => { st1 with pdfDoc := some pdf, pages := list }

/-- Entry list built by the `addPagesFromFile` loop: `existing` is the page
count before the append (the source reads `pages.length` from the closure),
and `now i` is the timestamp observed at iteration `i`. -/
def buildAddedPages (existing count : Nat) (now : Nat → Nat)
    (thumb : Nat → Option (List Char)) : Option (List PdfPage) :=
  buildPagesFrom thumb
    (fun i th =>
      { id := addedPageId (now i) i, pageNumber := existing + i + 1,
        thumbnail := th, originalIndex := i })
    (List.range count)

/-- Source `addPagesFromFile`: parses the additional file and appends one
entry per page; any failure is caught before `setPages` runs, leaving the
state unchanged. -/
def addPagesFromFile {γ : Type} (st : OrganizerState γ)
    (parsed : Option (List γ)) (now : Nat → Nat)
    (thumb : Nat → Option (List Char)) : OrganizerState γ :=
  match parsed with
  | none => st
  | some newPdf =>
    match buildAddedPages st.pages.length newPdf.length now thumb with
    | none => st
    | some newPages => { st with pages := st.pages ++ newPages }

/-! ### Materialization (`savePdf`) and merging (`mergePdfs`) -/

/-- Library `copyPages`: the pages of `doc` at the given indices. -/
def copyPages {γ : Type} (doc : List γ) (idxs : List Nat) : List γ :=
  idxs.filterMap (fun i => doc[i]?)

/-- The index `savePdf` derives from an entry identity:
`parseInt(page.id.split('-')[1])`, `none` standing for `NaN` (including
the case of a missing second fragment). -/
def parseIdIndex (id : List Char) : Option Nat :=
  match (splitDash id)[1]? with
  | none => none
  | some tok => jsParseInt tok

/-- The page-copying loop of `savePdf`: entries whose parsed index is a
valid index of the reloaded original document contribute that source page;
every other entry is skipped. -/
def savePdfLoop {γ : Type} (originalPdf : List γ) (pages : List PdfPage) :
    List γ :=
  pages.foldl
    (fun newPdf page =>
      match parseIdIndex page.id with
      | none => newPdf
      | some pageIndex =>
        if pageIndex < originalPdf.length then
          newPdf ++ copyPages originalPdf [pageIndex]
        else newPdf)
    []

/-- Result of `savePdf`: the silent early return, a caught error (no bytes
delivered), or delivered bytes together with the download file name. -/
inductive SaveOutcome (γ : Type) where
  | skipped
  | failed
  | saved (bytes : List γ) (fileName : List Char)
  deriving DecidableEq, Repr

/-- The literal file-name token `organized-`. -/
def organizedTok : List Char := "organized-".data

/-- Source `savePdf`: early-returns unless a document is loaded and pages
exist, re-reads and re-parses the loaded file (`reparsed` is the library's
result; `none` models a throw, caught with no output), then copies the
pages selected by `savePdfLoop` and delivers them as
`organized-${pdfFile.name}`. -/
def savePdf {γ : Type} (st : OrganizerState γ) (reparsed : Option (List γ)) :
    SaveOutcome γ :=
  if st.pdfDoc.isNone ∨ st.pages.isEmpty then .skipped
  else
    match st.pdfFile, reparsed with
    | some fname, some originalPdf =>
      .saved (savePdfLoop originalPdf st.pages) (organizedTok ++ fname)
    | _, _ => .failed

/-- The literal file-name token `merged-pdfs-`. -/
def mergedTok : List Char := "merged-pdfs-".data

/-- The literal file-name token `.pdf`. -/
def pdfExtTok : List Char := ".pdf".data

/-- Source `mergePdfs` (merger component): requires at least two files,
parses each (`none` models a throw, caught with no output), concatenates
all pages in list order, and delivers them as
`merged-pdfs-${date}.pdf` where `today` is the current ISO date. -/
def mergePdfs {γ : Type} (pdfs : List (Option (List γ))) (today : List Char) :
    Option (List γ × List Char) :=
  if pdfs.length < 2 then none
  else
    match pdfs.mapM id with
    | none => none
    | some docs => some (docs.flatten, mergedTok ++ today ++ pdfExtTok)

/-! ### Derived notions used by the stated properties -/

/-- The identities of the entries a `deleteSelectedPages` call removes
(the set `E` of the selection-consistency property). -/
def removedIds {γ : Type} (st : OrganizerState γ) : List (List Char) :=
  (st.pages.filter (fun p => p.id ∈ st.selectedPages)).map (fun p => p.id)

/-- A whole user session of move gestures, applied left to right. -/
def applyMoves {γ : Type} (st : OrganizerState γ) (ms : List (Nat × Int)) :
    OrganizerState γ :=
  ms.foldl (fun s m => movePage s m.1 m.2) st

/-! ### Concrete example data -/

/-- The entry the initial load creates for source page `k` (with the
thumbnail kept empty). -/
def mkPage (k : Nat) : PdfPage :=
  { id := loadedPageId k, pageNumber := k + 1, thumbnail := [],
    originalIndex := k }

/-- A one-page document whose single page has content `10`. -/
def docOne : List Nat := [10]

/-- A two-page document. -/
def docTwo : List Nat := [10, 20]

/-- A three-page document. -/
def docThree : List Nat := [10, 20, 30]

/-- A file name. -/
def fileF : List Char := "f.pdf".data

/-- A second file name. -/
def fileA : List Char := "a.pdf".data

/-- A third file name. -/
def fileB : List Char := "b.pdf".data

/-- A rendered `Math.random()` value. -/
def randTok : List Char := "0.5".data

/-- An ISO date, as the merger embeds in its output file name. -/
def dateTok : List Char := "2026-10-11".data

/-- An identity that belongs to no entry. -/
def ghostTok : List Char := "ghost".data

/-- State after loading the one-page document `docOne`. -/
def stLoaded : OrganizerState Nat :=
  handleFile emptyState fileF (some docOne) (fun _ => some [])

/-- State after duplicating the single page of `stLoaded` at timestamp
`1000`. -/
def stDup : OrganizerState Nat := duplicatePage stLoaded 0 1000 randTok

/-- A loaded state whose file is named `a.pdf`. -/
def stNameA : OrganizerState Nat :=
  { pdfFile := some fileA, pdfDoc := some docOne, pages := [mkPage 0],
    selectedPages := ∅ }

/-- The same state with the file named `b.pdf`. -/
def stNameB : OrganizerState Nat :=
  { pdfFile := some fileB, pdfDoc := some docOne, pages := [mkPage 0],
    selectedPages := ∅ }

/-- A one-page state with an empty selection. -/
def stToggle : OrganizerState Nat := { emptyState with pages := [mkPage 0] }

/-- Two pages, with a selection holding only an identity of no entry. -/
def stDangling : OrganizerState Nat :=
  { emptyState with
    pages := [mkPage 0, mkPage 1],
    selectedPages := ({ghostTok} : Finset (List Char)) }

/-- Two pages, both selected. -/
def stAllSel : OrganizerState Nat :=
  { emptyState with
    pages := [mkPage 0, mkPage 1],
    selectedPages := ({loadedPageId 0, loadedPageId 1} : Finset (List Char)) }

/-- Two pages, the first selected. -/
def stSub : OrganizerState Nat :=
  { emptyState with
    pages := [mkPage 0, mkPage 1],
    selectedPages := ({loadedPageId 0} : Finset (List Char)) }

/-- Three pages, with the first page's identity and a dangling identity
selected. -/
def stGhostSel : OrganizerState Nat :=
  { emptyState with
    pages := [mkPage 0, mkPage 1, mkPage 2],
    selectedPages := ({ghostTok, loadedPageId 0} : Finset (List Char)) }

/-- Four labeled pages, for checking a hand-computed move sequence. -/
def moveExampleState : OrganizerState Nat :=
  { emptyState with pages := [mkPage 0, mkPage 1, mkPage 2, mkPage 3] }

/-! ### Lemmas: decimal rendering round-trips through `parseInt` -/

theorem digitChar_spec :
    ∀ d : Nat, d < 10 →
      (Nat.digitChar d).isDigit = true ∧ digitVal (Nat.digitChar d) = d ∧
        Nat.digitChar d ≠ '-' := by
  decide

theorem toDigitsAux_digits :
    ∀ fuel n, n < fuel → ∀ c ∈ toDigitsAux fuel n, c.isDigit = true := by
  intro fuel
  induction fuel with
  | zero => intro n hn; exact absurd hn (Nat.not_lt_zero n)
  | succ fuel ih =>
    intro n hn c hc
    by_cases h10 : n < 10
    · simp only [toDigitsAux, if_pos h10, List.mem_singleton] at hc
      exact hc ▸ (digitChar_spec n h10).1
    · simp only [toDigitsAux, if_neg h10, List.mem_append,
        List.mem_singleton] at hc
      rcases hc with hc | hc
      · have hdiv : n / 10 < fuel :=
          lt_of_lt_of_le (Nat.div_lt_self (by omega) (by omega)) (by omega)
        exact ih (n / 10) hdiv c hc
      · exact hc ▸ (digitChar_spec (n % 10) (Nat.mod_lt n (by omega))).1

theorem toDigitsAux_ne_nil :
    ∀ fuel n, n < fuel → toDigitsAux fuel n ≠ [] := by
  intro fuel n hn
  cases fuel with
  | zero => exact absurd hn (Nat.not_lt_zero n)
  | succ fuel =>
    by_cases h10 : n < 10
    · simp [toDigitsAux, if_pos h10]
    · simp [toDigitsAux, if_neg h10]

theorem toDigitsAux_foldl :
    ∀ fuel n acc, n < fuel →
      (toDigitsAux fuel n).foldl (fun a c => a * 10 + digitVal c) acc =
        acc * 10 ^ (toDigitsAux fuel n).length + n := by
  intro fuel
  induction fuel with
  | zero => intro n acc hn; exact absurd hn (Nat.not_lt_zero n)
  | succ fuel ih =>
    intro n acc hn
    by_cases h10 : n < 10
    · simp only [toDigitsAux, if_pos h10, List.foldl_cons, List.foldl_nil,
        List.length_singleton, pow_one]
      rw [(digitChar_spec n h10).2.1]
    · have hdiv : n / 10 < fuel :=
        lt_of_lt_of_le (Nat.div_lt_self (by omega) (by omega)) (by omega)
      simp only [toDigitsAux, if_neg h10, List.foldl_append, List.foldl_cons,
        List.foldl_nil, List.length_append, List.length_singleton]
      rw [ih (n / 10) acc hdiv, (digitChar_spec (n % 10) (Nat.mod_lt n (by omega))).2.1]
      have hmod : 10 * (n / 10) + n % 10 = n := Nat.div_add_mod n 10
      rw [pow_succ, ← Nat.mul_assoc]
      omega

theorem natDigits_digits (n : Nat) : ∀ c ∈ natDigits n, c.isDigit = true :=
  toDigitsAux_digits (n + 1) n (Nat.lt_succ_self n)

theorem natDigits_ne_nil (n : Nat) : natDigits n ≠ [] :=
  toDigitsAux_ne_nil (n + 1) n (Nat.lt_succ_self n)

theorem natDigits_no_dash (n : Nat) : ∀ c ∈ natDigits n, c ≠ '-' := by
  intro c hc
  have hd := natDigits_digits n c hc
  intro h
  rw [h] at hd
  exact absurd hd (by decide)

/-- `parseInt` undoes the decimal rendering of a natural number. -/
theorem jsParseInt_natDigits (n : Nat) : jsParseInt (natDigits n) = some n := by
  unfold jsParseInt
  have htake : (natDigits n).takeWhile Char.isDigit = natDigits n :=
    List.takeWhile_eq_self_iff.2 (natDigits_digits n)
  rw [htake]
  rw [if_neg (by simpa [List.isEmpty_iff] using natDigits_ne_nil n)]
  have := toDigitsAux_foldl (n + 1) n 0 (Nat.lt_succ_self n)
  unfold natDigits
  rw [this]
  simp

/-! ### Lemmas: `split('-')` on the generated identities -/

theorem splitDash_of_no_dash {xs : List Char} (h : ∀ c ∈ xs, c ≠ '-') :
    splitDash xs = [xs] := by
  induction xs with
  | nil => rfl
  | cons c rest ih =>
    have hc : c ≠ '-' := h c (List.mem_cons_self c rest)
    have hrest := ih (fun d hd => h d (List.mem_cons_of_mem c hd))
    simp [splitDash, hc, hrest]

theorem splitDash_append {xs ys : List Char} (h : ∀ c ∈ xs, c ≠ '-') :
    splitDash (xs ++ '-' :: ys) = xs :: splitDash ys := by
  induction xs with
  | nil => simp [splitDash]
  | cons c rest ih =>
    have hc : c ≠ '-' := h c (List.mem_cons_self c rest)
    have hrest := ih (fun d hd => h d (List.mem_cons_of_mem c hd))
    simp [splitDash, hc, hrest]

theorem pageTok_no_dash : ∀ c ∈ pageTok, c ≠ '-' := by decide

/-- A load-generated identity parses back to its source page index. -/
theorem parseIdIndex_loadedPageId (i : Nat) :
    parseIdIndex (loadedPageId i) = some i := by
  unfold parseIdIndex loadedPageId
  rw [splitDash_append pageTok_no_dash, splitDash_of_no_dash (natDigits_no_dash i)]
  simp [jsParseInt_natDigits]

/-- A duplicate-generated identity parses to its creation timestamp. -/
theorem parseIdIndex_dupPageId (now : Nat) (rand : List Char) :
    parseIdIndex (dupPageId now rand) = some now := by
  unfold parseIdIndex dupPageId
  rw [splitDash_append pageTok_no_dash, splitDash_append (natDigits_no_dash now)]
  simp [jsParseInt_natDigits]

/-- An append-generated identity parses to its creation timestamp. -/
theorem parseIdIndex_addedPageId (now i : Nat) :
    parseIdIndex (addedPageId now i) = some now := by
  unfold parseIdIndex addedPageId
  rw [splitDash_append pageTok_no_dash, splitDash_append (natDigits_no_dash now)]
  simp [jsParseInt_natDigits]

/-! ### Lemmas: the `savePdf` copy loop -/

theorem savePdfLoop_step {γ : Type} (doc acc : List γ) (p : PdfPage) :
    (match parseIdIndex p.id with
      | none => acc
      | some pageIndex =>
        if pageIndex < doc.length then acc ++ copyPages doc [pageIndex]
        else acc) =
      acc ++ ((parseIdIndex p.id).bind (fun j => doc[j]?)).toList := by
  cases hp : parseIdIndex p.id with
  | none => simp
  | some j =>
    by_cases hj : j < doc.length
    · simp [hj, copyPages, List.getElem?_eq_getElem hj]
    · simp [hj, List.getElem?_eq_none (Nat.le_of_not_lt hj)]

theorem savePdfLoop_from {γ : Type} (doc : List γ) (pages : List PdfPage) :
    ∀ acc : List γ,
      pages.foldl
        (fun newPdf page =>
          match parseIdIndex page.id with
          | none => newPdf
          | some pageIndex =>
            if pageIndex < doc.length then newPdf ++ copyPages doc [pageIndex]
            else newPdf)
        acc =
      acc ++ pages.filterMap (fun p => (parseIdIndex p.id).bind (fun j => doc[j]?)) := by
  induction pages with
  | nil => intro acc; simp
  | cons p ps ih =>
    intro acc
    rw [List.foldl_cons, ih, savePdfLoop_step doc acc p]
    cases hp : (parseIdIndex p.id).bind (fun j => doc[j]?) with
    | none => simp [List.filterMap_cons, hp]
    | some x => simp [List.filterMap_cons, hp]

/-- The copy loop keeps exactly the entries whose parsed identity index is
a valid index of the original document, replacing each by that source
page. -/
theorem savePdfLoop_eq_filterMap {γ : Type} (doc : List γ)
    (pages : List PdfPage) :
    savePdfLoop doc pages =
      pages.filterMap (fun p => (parseIdIndex p.id).bind (fun j => doc[j]?)) := by
  unfold savePdfLoop
  simpa using savePdfLoop_from doc pages []

theorem filterMap_getElem_range {γ : Type} (l : List γ) :
    (List.range l.length).filterMap (fun i => l[i]?) = l := by
  induction l with
  | nil => rfl
  | cons a l ih =>
    rw [List.length_cons, List.range_succ_eq_map, List.filterMap_cons]
    simp only [List.getElem?_cons_zero, List.filterMap_map]
    have hcomp : ((fun i => (a :: l)[i]?) ∘ (· + 1)) = fun i => l[i]? := by
      funext i
      simp
    rw [hcomp, ih]

/-! ### Lemmas: the page-building loops -/

theorem buildPagesFrom_map (thumb : Nat → Option (List Char))
    (tf : Nat → List Char) (mk : Nat → List Char → PdfPage) :
    ∀ l : List Nat, (∀ i ∈ l, thumb i = some (tf i)) →
      buildPagesFrom thumb mk l = some (l.map (fun i => mk i (tf i))) := by
  intro l
  induction l with
  | nil => intro _; rfl
  | cons i rest ih =>
    intro h
    have hi := h i (List.mem_cons_self i rest)
    have hrest := ih (fun j hj => h j (List.mem_cons_of_mem i hj))
    simp [buildPagesFrom, hi, hrest]

theorem buildPagesFrom_fail (thumb : Nat → Option (List Char))
    (mk : Nat → List Char → PdfPage) :
    ∀ (l : List Nat) (k : Nat), k ∈ l → thumb k = none →
      buildPagesFrom thumb mk l = none := by
  intro l
  induction l with
  | nil => intro k hk; exact absurd hk (List.not_mem_nil k)
  | cons i rest ih =>
    intro k hk hfail
    rcases List.mem_cons.1 hk with h | h
    · simp [buildPagesFrom, h ▸ hfail]
    · cases hi : thumb i with
      | none => simp [buildPagesFrom, hi]
      | some th => simp [buildPagesFrom, hi, ih k h hfail]

/-! ### Lemmas: counting deleted entries -/

theorem length_filter_add_length_filter_not {α : Type} (l : List α)
    (p : α → Bool) :
    (l.filter p).length + (l.filter (fun a => !(p a))).length = l.length := by
  induction l with
  | nil => rfl
  | cons a l ih =>
    by_cases hp : p a
    · simp [List.filter_cons, hp, ← ih]; omega
    · simp [List.filter_cons, hp, ← ih]; omega

theorem length_filter_mem {sel : Finset (List Char)} {ids : List (List Char)}
    (hnd : ids.Nodup) (hsub : ∀ v ∈ sel, v ∈ ids) :
    (ids.filter (fun v => v ∈ sel)).length = sel.card := by
  have h1 : (ids.filter (fun v => v ∈ sel)).Nodup := hnd.filter _
  have h2 : (ids.filter (fun v => v ∈ sel)).toFinset = sel := by
    ext v
    simp only [List.mem_toFinset, List.mem_filter, decide_eq_true_eq]
    exact ⟨fun h => h.2, fun h => ⟨hsub v h, h⟩⟩
  rw [← List.toFinset_card_of_nodup h1, h2]

/-! ### Lemmas: splice-out / splice-in -/

theorem insertIdx_eraseIdx_self {α : Type} :
    ∀ (l : List α) (i : Nat) (x : α), l[i]? = some x →
      (l.eraseIdx i).insertIdx i x = l := by
  intro l
  induction l with
  | nil => intro i x h; simp at h
  | cons a l ih =>
    intro i x h
    cases i with
    | zero =>
      simp only [List.getElem?_cons_zero, Option.some.injEq] at h
      simp [h]
    | succ i =>
      simp only [List.getElem?_cons_succ] at h
      simp [List.eraseIdx_cons_succ, List.insertIdx_succ_cons, ih i x h]

/-- When a document is loaded, pages exist, and re-parsing the file
succeeds, `savePdf` delivers the loop's output under the `organized-`
name. -/
theorem savePdf_saved {γ : Type} (st : OrganizerState γ) (doc : List γ)
    (fname : List Char) (d0 : List γ) (hfile : st.pdfFile = some fname)
    (hdoc : st.pdfDoc = some d0) (hne : st.pages ≠ []) :
    savePdf st (some doc) =
      SaveOutcome.saved (savePdfLoop doc st.pages) (organizedTok ++ fname) := by
  unfold savePdf
  rw [if_neg ?_, hfile]
  · intro h
    rcases h with h | h
    · rw [hdoc] at h
      simp at h
    · rw [List.isEmpty_iff] at h
      exact hne h

/-! ### Claims -/

/-- Claim C7 (amended): `ToggleSelect(v)` removes `v` from the selection
set when present and inserts it when absent, unconditionally — no check
that `v` names an existing entry is performed — and never touches the page
sequence. -/
theorem claim_C7 {γ : Type} (st : OrganizerState γ) (v : List Char) :
    (v ∈ st.selectedPages →
      (togglePageSelection st v).selectedPages = st.selectedPages.erase v) ∧
    (v ∉ st.selectedPages →
      (togglePageSelection st v).selectedPages = insert v st.selectedPages) ∧
    (togglePageSelection st v).pages = st.pages := by
  refine ⟨fun h => ?_, fun h => ?_, rfl⟩
  · simp [togglePageSelection, h]
  · simp [togglePageSelection, h]

theorem claim_C7_witness :
    (togglePageSelection stSub (loadedPageId 0)).selectedPages =
      stSub.selectedPages.erase (loadedPageId 0) ∧
    (togglePageSelection stToggle ghostTok).selectedPages =
      insert ghostTok stToggle.selectedPages :=
  ⟨(claim_C7 stSub (loadedPageId 0)).1 (by decide),
   (claim_C7 stToggle ghostTok).2.1 (by decide)⟩

/-- Claim C7 counterexample: toggling an identity that names no entry is
not a no-op — the dangling identity is inserted into the selection set. -/
theorem claim_C7_counterexample :
    (¬ ghostTok ∈ stToggle.pages.map (fun p => p.id)) ∧
    (togglePageSelection stToggle ghostTok).selectedPages ≠
      stToggle.selectedPages := by
  decide

/-- Claim C6: when the external library cannot parse the input bytes, the
page sequence is left exactly as it was — no entries are appended, and a
mid-loop thumbnail failure likewise appends no partial prefix — both for
the initial load and for appending pages from an additional file. -/
theorem claim_C6 {γ : Type} (st : OrganizerState γ) (name : List Char)
    (now : Nat → Nat) (thumb : Nat → Option (List Char)) (doc : List γ)
    (k : Nat) :
    ((handleFile st name none thumb).pages = st.pages) ∧
    (k < doc.length → thumb k = none →
      (handleFile st name (some doc) thumb).pages = st.pages) ∧
    (addPagesFromFile st none now thumb = st) ∧
    (k < doc.length → thumb k = none →
      addPagesFromFile st (some doc) now thumb = st) := by
  refine ⟨rfl, fun hk hfail => ?_, rfl, fun hk hfail => ?_⟩
  · have hb : buildLoadedPages doc.length thumb = none := by
      unfold buildLoadedPages
      exact buildPagesFrom_fail thumb _ (List.range doc.length) k
        (List.mem_range.2 hk) hfail
    simp [handleFile, hb]
  · have hb : buildAddedPages st.pages.length doc.length now thumb = none := by
      unfold buildAddedPages
      exact buildPagesFrom_fail thumb _ (List.range doc.length) k
        (List.mem_range.2 hk) hfail
    simp [addPagesFromFile, hb]

theorem claim_C6_witness :
    (handleFile (emptyState : OrganizerState Nat) fileF none
      (fun _ => some [])).pages = [] ∧
    (handleFile (emptyState : OrganizerState Nat) fileF (some docOne)
      (fun _ => none)).pages = [] ∧
    addPagesFromFile stLoaded none (fun _ => 1000) (fun _ => some []) =
      stLoaded ∧
    addPagesFromFile stLoaded (some docOne) (fun _ => 1000) (fun _ => none) =
      stLoaded :=
  ⟨(claim_C6 emptyState fileF (fun _ => 1000) (fun _ => some []) docOne 0).1,
   (claim_C6 emptyState fileF (fun _ => 1000) (fun _ => none) docOne 0).2.1
     (by decide) rfl,
   (claim_C6 stLoaded fileF (fun _ => 1000) (fun _ => some []) docOne 0).2.2.1,
   (claim_C6 stLoaded fileF (fun _ => 1000) (fun _ => none) docOne 0).2.2.2
     (by decide) rfl⟩

/-- Claim C9 (amended): the organizer's delivered file is named
`organized-` followed by the loaded file's name — determined by that name,
not by the date; only the merger's output name `merged-pdfs-<date>.pdf` is
determined by the current date. -/
theorem claim_C9 {γ : Type} (st : OrganizerState γ)
    (reparsed : Option (List γ)) (bytes : List γ) (nm fname : List Char)
    (pdfs : List (Option (List γ))) (today : List Char)
    (out : List γ × List Char) :
    (savePdf st reparsed = SaveOutcome.saved bytes nm →
      st.pdfFile = some fname → nm = organizedTok ++ fname) ∧
    (mergePdfs pdfs today = some out →
      out.2 = mergedTok ++ today ++ pdfExtTok) := by
  constructor
  · intro hsave hfile
    unfold savePdf at hsave
    by_cases hguard : st.pdfDoc.isNone ∨ st.pages.isEmpty
    · rw [if_pos hguard] at hsave
      exact absurd hsave (by simp)
    · rw [if_neg hguard] at hsave
      rcases hpf : st.pdfFile with _ | f
      · rw [hpf] at hsave
        cases reparsed <;> simp at hsave
      · rcases hr : reparsed with _ | d
        · rw [hpf, hr] at hsave
          simp at hsave
        · rw [hpf, hr] at hsave
          simp only [SaveOutcome.saved.injEq] at hsave
          rw [hpf] at hfile
          rw [← hsave.2, Option.some.inj hfile]
  · intro hmerge
    unfold mergePdfs at hmerge
    by_cases h2 : pdfs.length < 2
    · rw [if_pos h2] at hmerge
      exact absurd hmerge (by simp)
    · rw [if_neg h2] at hmerge
      cases hm : pdfs.mapM id with
      | none =>
        rw [hm] at hmerge
        simp at hmerge
      | some docs =>
        rw [hm] at hmerge
        rw [← Option.some.inj hmerge]

theorem claim_C9_witness :
    organizedTok ++ fileA = organizedTok ++ fileA ∧
    (docTwo, mergedTok ++ dateTok ++ pdfExtTok).2 =
      mergedTok ++ dateTok ++ pdfExtTok :=
  ⟨(claim_C9 stNameA (some docOne) docOne (organizedTok ++ fileA) fileA
      ([] : List (Option (List Nat))) dateTok ([], [])).1 (by decide) rfl,
   (claim_C9 stNameA (some docOne) docOne (organizedTok ++ fileA) fileA
      [some [10], some [20]] dateTok
      (docTwo, mergedTok ++ dateTok ++ pdfExtTok)).2 (by decide)⟩

/-- Claim C9 counterexample: two materializations on the same date from
files with different names are delivered under different names, so the
organizer's file name is not determined by the date alone. -/
theorem claim_C9_counterexample :
    savePdf stNameA (some docOne) =
      SaveOutcome.saved docOne (organizedTok ++ fileA) ∧
    savePdf stNameB (some docOne) =
      SaveOutcome.saved docOne (organizedTok ++ fileB) ∧
    organizedTok ++ fileA ≠ organizedTok ++ fileB := by
  decide

/-- Claim C10: the save loop keeps exactly the entries whose identity,
split on `-` with the second token read as an integer, is a valid page
index of the originally loaded document, copying that source page;
load-generated identities parse to their page index, while duplicate- and
append-generated identities parse to their creation timestamp and are
silently skipped whenever that timestamp is at least the page count. -/
theorem claim_C10 {γ : Type} (doc : List γ) (pages : List PdfPage)
    (i now : Nat) (rand : List Char) :
    (savePdfLoop doc pages =
      pages.filterMap (fun p => (parseIdIndex p.id).bind (fun j => doc[j]?))) ∧
    parseIdIndex (loadedPageId i) = some i ∧
    (parseIdIndex (dupPageId now rand) = some now ∧
      (doc.length ≤ now →
        (parseIdIndex (dupPageId now rand)).bind (fun j => doc[j]?) = none)) ∧
    (parseIdIndex (addedPageId now i) = some now ∧
      (doc.length ≤ now →
        (parseIdIndex (addedPageId now i)).bind (fun j => doc[j]?) = none)) := by
  refine ⟨savePdfLoop_eq_filterMap doc pages, parseIdIndex_loadedPageId i,
    ⟨parseIdIndex_dupPageId now rand, fun hle => ?_⟩,
    ⟨parseIdIndex_addedPageId now i, fun hle => ?_⟩⟩
  · rw [parseIdIndex_dupPageId]
    simp [List.getElem?_eq_none hle]
  · rw [parseIdIndex_addedPageId]
    simp [List.getElem?_eq_none hle]

/-- Claim C5: a move with an in-range target removes the entry and
reinserts it at the target position, preserving the other entries'
relative order and the length; an out-of-range target, or a target equal
to the current position, leaves the sequence unchanged; and a concrete
move sequence realizes its hand-computed composite permutation. -/
theorem claim_C5 {γ : Type} (st : OrganizerState γ) (i : Nat) (t : Int) :
    (t < 0 ∨ (st.pages.length : Int) ≤ t → movePage st i t = st) ∧
    (0 ≤ t → t < (st.pages.length : Int) → i < st.pages.length →
      (movePage st i t).pages[t.toNat]? = st.pages[i]? ∧
      (movePage st i t).pages.eraseIdx t.toNat = st.pages.eraseIdx i ∧
      (movePage st i t).pages.length = st.pages.length) ∧
    (i < st.pages.length → movePage st i (i : Int) = st) ∧
    (applyMoves moveExampleState [(0, 2), (1, 3)]).pages.map
      (fun p => p.originalIndex) = [1, 0, 3, 2] := by
  refine ⟨fun h => ?_, fun h0 hlt hi => ?_, fun hi => ?_, by decide⟩
  · unfold movePage
    rw [if_pos h]
  · have hguard : ¬ (t < 0 ∨ (st.pages.length : Int) ≤ t) := by
      push_neg
      exact ⟨h0, hlt⟩
    have hx : st.pages[i]? = some st.pages[i] := List.getElem?_eq_getElem hi
    have ht' : t.toNat < st.pages.length := by omega
    have hel : (st.pages.eraseIdx i).length = st.pages.length - 1 :=
      List.length_eraseIdx_of_lt hi
    have ht'' : t.toNat ≤ (st.pages.eraseIdx i).length := by omega
    have hmv : (movePage st i t).pages =
        (st.pages.eraseIdx i).insertIdx t.toNat st.pages[i] := by
      unfold movePage
      rw [if_neg hguard, hx]
    have hlen2 :
        ((st.pages.eraseIdx i).insertIdx t.toNat st.pages[i]).length =
          st.pages.length := by
      rw [List.length_insertIdx _ _ ht'']
      omega
    refine ⟨?_, ?_, ?_⟩
    · rw [hmv, hx]
      rw [List.getElem?_eq_getElem (hlen2 ▸ ht')]
      exact congrArg some (List.getElem_insertIdx_self _ _ _ ht'')
    · rw [hmv]
      exact List.eraseIdx_insertIdx t.toNat (st.pages.eraseIdx i)
    · rw [hmv, hlen2]
  · have hguard : ¬ ((i : Int) < 0 ∨ (st.pages.length : Int) ≤ (i : Int)) := by
      push_neg
      constructor
      · exact Int.natCast_nonneg i
      · exact_mod_cast hi
    have hx : st.pages[i]? = some st.pages[i] := List.getElem?_eq_getElem hi
    have htn : ((i : Int)).toNat = i := by omega
    unfold movePage
    rw [if_neg hguard, hx]
    show { st with
        pages := (st.pages.eraseIdx i).insertIdx ((i : Int)).toNat st.pages[i] } = st
    rw [htn, insertIdx_eraseIdx_self st.pages i _ hx]

theorem claim_C5_witness :
    movePage moveExampleState 0 (-1) = moveExampleState ∧
    (movePage moveExampleState 0 2).pages[(2 : Int).toNat]? =
      moveExampleState.pages[0]? ∧
    movePage moveExampleState 1 ((1 : Nat) : Int) = moveExampleState :=
  ⟨(claim_C5 moveExampleState 0 (-1)).1 (Or.inl (by decide)),
   ((claim_C5 moveExampleState 0 2).2.1 (by decide) (by decide) (by decide)).1,
   (claim_C5 moveExampleState 1 1).2.2.1 (by decide)⟩

/-- Claim C4: loading a `P`-page document (`P ≥ 1`) and materializing with
no intervening mutations yields exactly the input document's pages, in
content and order, delivered under the `organized-` file name. -/
theorem claim_C4 {γ : Type} (st : OrganizerState γ) (doc : List γ)
    (hP : 1 ≤ doc.length) (name : List Char) (thumb : Nat → List Char) :
    savePdf (handleFile st name (some doc) (fun i => some (thumb i)))
      (some doc) = SaveOutcome.saved doc (organizedTok ++ name) := by
  have hbuild : buildLoadedPages doc.length (fun i => some (thumb i)) =
      some ((List.range doc.length).map
        (fun i =>
          { id := loadedPageId i, pageNumber := i + 1, thumbnail := thumb i,
            originalIndex := i })) := by
    unfold buildLoadedPages
    exact buildPagesFrom_map _ thumb _ (List.range doc.length) (fun i _ => rfl)
  have hstate : handleFile st name (some doc) (fun i => some (thumb i)) =
      { pdfFile := some name, pdfDoc := some doc,
        pages := (List.range doc.length).map
          (fun i =>
            { id := loadedPageId i, pageNumber := i + 1,
              thumbnail := thumb i, originalIndex := i }),
        selectedPages := ∅ } := by
    simp only [handleFile, hbuild]
  have hloop : savePdfLoop doc
      ((List.range doc.length).map
        (fun i =>
          { id := loadedPageId i, pageNumber := i + 1, thumbnail := thumb i,
            originalIndex := i })) = doc := by
    rw [savePdfLoop_eq_filterMap, List.filterMap_map]
    rw [List.filterMap_congr (g := fun i => doc[i]?) ?_]
    · exact filterMap_getElem_range doc
    · intro i _
      simp [Function.comp, parseIdIndex_loadedPageId]
  rw [hstate, savePdf_saved _ doc name doc rfl rfl ?_, hloop]
  intro h
  have hcl := congrArg List.length h
  simp only [List.length_map, List.length_range, List.length_nil] at hcl
  omega

theorem claim_C4_witness :
    savePdf
      (handleFile (emptyState : OrganizerState Nat) fileF (some docThree)
        (fun i => some ((fun _ => ([] : List Char)) i)))
      (some docThree) = SaveOutcome.saved docThree (organizedTok ++ fileF) :=
  claim_C4 emptyState docThree (by decide) fileF (fun _ => [])

/-- Claim C2 (code bug): duplicating the only page of a one-page document
does insert, immediately after it, a new entry with the same source page
index and a fresh distinct identity — yet materializing produces the
source page once, not twice: `savePdf` parses the duplicate's identity
second token as its creation timestamp 1000, which fails the page-index
check and is silently skipped. -/
theorem claim_C2_bug :
    stDup.pages.length = 2 ∧
    stDup.pages.map (fun p => p.originalIndex) = [0, 0] ∧
    (stDup.pages.map (fun p => p.id)).Nodup ∧
    savePdf stDup (some docOne) =
      SaveOutcome.saved [10] (organizedTok ++ fileF) ∧
    ([10] : List Nat) ≠ [10, 10] := by
  decide

/-- Claim C3 (code bug): on the duplicated state, `savePdf` succeeds and
delivers a complete-looking output, yet the output has one page while the
sequence has two entries — an entry was silently omitted with no
`MaterializeError`. -/
theorem claim_C3_bug :
    savePdf stDup (some docOne) =
      SaveOutcome.saved [10] (organizedTok ++ fileF) ∧
    stDup.pages.length = 2 ∧
    ([10] : List Nat).length ≠ stDup.pages.length := by
  decide

/-- Claim C1 (amended): with at least one page, a `Delete` call whose
selection has size N (the page count) is rejected with the state entirely
unchanged; a call whose selection has size N-1 leaves exactly one entry
provided the entry identities are pairwise distinct and every selected
identity is the identity of some entry. -/
theorem claim_C1 {γ : Type} (st : OrganizerState γ)
    (hN : 1 ≤ st.pages.length) :
    (st.selectedPages.card = st.pages.length →
      deleteSelectedPages st = (st, DeleteOutcome.rejected)) ∧
    ((st.pages.map (fun p => p.id)).Nodup →
      (∀ v ∈ st.selectedPages, v ∈ st.pages.map (fun p => p.id)) →
      st.selectedPages.card = st.pages.length - 1 →
      (deleteSelectedPages st).1.pages.length = 1) := by
  constructor
  · intro hcard
    unfold deleteSelectedPages
    rw [if_neg (by omega), if_pos hcard.symm]
  · intro hnd hsub hcard
    by_cases h0 : st.selectedPages.card = 0
    · unfold deleteSelectedPages
      rw [if_pos h0]
      show st.pages.length = 1
      omega
    · have hne : ¬ st.pages.length = st.selectedPages.card := by omega
      unfold deleteSelectedPages
      rw [if_neg h0, if_neg hne]
      show (st.pages.filter (fun page => page.id ∉ st.selectedPages)).length = 1
      have hlen : (st.pages.filter (fun page => page.id ∉ st.selectedPages)).length
          = ((st.pages.map (fun p => p.id)).filter
              (fun v => v ∉ st.selectedPages)).length := by
        rw [List.filter_map, List.length_map]
        rfl
      have hpred : (fun v : List Char => decide (v ∉ st.selectedPages))
          = (fun v => !(decide (v ∈ st.selectedPages))) := by
        funext v
        simp [decide_not]
      have htotal := length_filter_add_length_filter_not
        (st.pages.map (fun p => p.id)) (fun v => decide (v ∈ st.selectedPages))
      have hcount := length_filter_mem hnd hsub
      have hmaplen : (st.pages.map (fun p => p.id)).length = st.pages.length :=
        List.length_map _ _
      rw [hlen]
      have : (st.pages.map (fun p => p.id)).filter (fun v => v ∉ st.selectedPages)
          = (st.pages.map (fun p => p.id)).filter
              (fun v => !(decide (v ∈ st.selectedPages))) := by
        rw [hpred]
      rw [this]
      omega

theorem claim_C1_witness :
    deleteSelectedPages stAllSel = (stAllSel, DeleteOutcome.rejected) ∧
    (deleteSelectedPages stSub).1.pages.length = 1 :=
  ⟨(claim_C1 stAllSel (by decide)).1 (by decide),
   (claim_C1 stSub (by decide)).2 (by decide) (by decide) (by decide)⟩

/-- Claim C1 counterexample: with two pages and a selection holding one
identity that names no entry (size N-1 = 1), `Delete` proceeds but removes
nothing, leaving two entries rather than exactly one. -/
theorem claim_C1_counterexample :
    stDangling.pages.length = 2 ∧
    stDangling.selectedPages.card = stDangling.pages.length - 1 ∧
    (deleteSelectedPages stDangling).2 = DeleteOutcome.deleted ∧
    (deleteSelectedPages stDangling).1.pages.length = 2 := by
  decide

/-- Claim C8 (amended): a successful `Delete` resets the selection set to
empty, so no removed entry's identity remains selected; provided every
selected identity named an existing entry, identities of entries that were
not removed keep their (absent) membership, and afterwards every selected
identity again names an existing entry.  (Without that proviso the reset
also drops dangling selected identities, and `ToggleSelect` can introduce
dangling identities, so the at-all-times invariant does not hold.) -/
theorem claim_C8 {γ : Type} (st : OrganizerState γ)
    (hsub : ∀ v ∈ st.selectedPages, v ∈ st.pages.map (fun p => p.id))
    (hdel : (deleteSelectedPages st).2 = DeleteOutcome.deleted) :
    (∀ v ∈ removedIds st, v ∉ (deleteSelectedPages st).1.selectedPages) ∧
    (∀ v, ¬ v ∈ removedIds st →
      ((v ∈ (deleteSelectedPages st).1.selectedPages) ↔
        (v ∈ st.selectedPages))) ∧
    (∀ v ∈ (deleteSelectedPages st).1.selectedPages,
      v ∈ (deleteSelectedPages st).1.pages.map (fun p => p.id)) := by
  by_cases h0 : st.selectedPages.card = 0
  · exfalso
    unfold deleteSelectedPages at hdel
    rw [if_pos h0] at hdel
    simp at hdel
  · by_cases hlen : st.pages.length = st.selectedPages.card
    · exfalso
      unfold deleteSelectedPages at hdel
      rw [if_neg h0, if_pos hlen] at hdel
      simp at hdel
    · have hst : (deleteSelectedPages st).1 =
          { st with
            pages := st.pages.filter (fun page => page.id ∉ st.selectedPages),
            selectedPages := ∅ } := by
        unfold deleteSelectedPages
        rw [if_neg h0, if_neg hlen]
      refine ⟨?_, ?_, ?_⟩
      · intro v _ hmem
        rw [hst] at hmem
        simp at hmem
      · intro v hvnot
        rw [hst]
        constructor
        · intro hv
          simp at hv
        · intro hv
          exfalso
          apply hvnot
          rcases List.mem_map.1 (hsub v hv) with ⟨p, hp, hpid⟩
          exact List.mem_map.2
            ⟨p, List.mem_filter.2 ⟨hp, by simp [hpid, hv]⟩, hpid⟩
      · intro v hv
        rw [hst] at hv
        simp at hv

theorem claim_C8_witness :
    ¬ loadedPageId 0 ∈ (deleteSelectedPages stSub).1.selectedPages ∧
    ((loadedPageId 1 ∈ (deleteSelectedPages stSub).1.selectedPages) ↔
      (loadedPageId 1 ∈ stSub.selectedPages)) :=
  ⟨(claim_C8 stSub (by decide) (by decide)).1 (loadedPageId 0) (by decide),
   (claim_C8 stSub (by decide) (by decide)).2.1 (loadedPageId 1) (by decide)⟩

/-- Claim C8 counterexample: with a dangling identity selected alongside a
real one, the dangling identity is not among the removed entries' ids, yet
its selection membership changes (the whole set is cleared). -/
theorem claim_C8_counterexample :
    (deleteSelectedPages stGhostSel).2 = DeleteOutcome.deleted ∧
    ¬ ghostTok ∈ removedIds stGhostSel ∧
    ghostTok ∈ stGhostSel.selectedPages ∧
    ¬ ghostTok ∈ (deleteSelectedPages stGhostSel).1.selectedPages := by
  decide

theorem claim_C10_witness :
    (savePdfLoop docTwo [mkPage 0] =
      [mkPage 0].filterMap
        (fun p => (parseIdIndex p.id).bind (fun j => docTwo[j]?))) ∧
    ((parseIdIndex (dupPageId 1000 randTok)).bind
        (fun j => docTwo[j]?) = none) :=
  ⟨(claim_C10 docTwo [mkPage 0] 0 1000 randTok).1,
   (claim_C10 docTwo [mkPage 0] 0 1000 randTok).2.2.1.2 (by decide)⟩

end PdfTools
